import Mathlib

/-!
Verification development for the threat-detection core: the detection rules
over the event store (src/detection/rules.js), the IP reputation cache with
its deterministic fallback generator (src/enrichment/abuseipdb.js), the
ingestion normalizer (src/utils/parsers.js) and the batch-ingestion
transaction (src/api/routes.js).

Modelling conventions.  SQL rows become Lean structures and tables become
lists of rows.  Timestamps stored as ISO-8601 text and compared through the
SQLite datetime functions are embedded as integer epoch seconds: datetime
comparison of normalized ISO text coincides with numeric comparison of the
corresponding epoch values, strftime with format H is hourOfDay, and
strftime with format w is weekdayOf (0 = Sunday).  Nullable columns become
Option types and the SQL NULL propagation of LIKE is made explicit.  JS
falsiness of a string value (null, undefined or the empty string) is made
explicit wherever the code branches on it.
-/

namespace ThreatDetect

/-- A row of the logs table (the event store), as created by the schema in
src/database/init.js.  The raw_data column is the opaque audit blob. -/
structure LogEvent where
  timestamp : Int
  event_type : Option String
  username : Option String
  source_ip : Option String
  destination_ip : Option String
  status : Option String
  message : Option String
  raw_data : String
deriving Repr, DecidableEq

/-- A row of the alerts table, as inserted by insertAlert.  The status,
ai_summary and created_at columns take their defaults on insertion and are
not set by any detection rule, so they are omitted here. -/
structure Alert where
  alert_type : String
  severity : String
  title : String
  description : String
  affected_entity : Option String
  source_ip : Option String
  event_count : Nat
  first_seen : Int
  last_seen : Int
deriving Repr, DecidableEq

/-- Decides whether the pattern occurs as a contiguous block at the head of
the character list. -/
def blockAtHead : List Char → List Char → Bool
  | [], _ => true
  | _ :: _, [] => false
  | p :: ps, c :: cs => p == c && blockAtHead ps cs

/-- Decides whether the pattern occurs as a contiguous block anywhere in the
character list. -/
def blockInside (pat : List Char) : List Char → Bool
  | [] => pat.isEmpty
  | c :: cs => blockAtHead pat (c :: cs) || blockInside pat cs

/-- ASCII lowering of one character, the case folding SQLite LIKE applies
(LIKE is case-insensitive for ASCII only). -/
def lowerChar (c : Char) : Char :=
  if 65 ≤ c.toNat ∧ c.toNat ≤ 90 then Char.ofNat (c.toNat + 32) else c

/-- SQLite LIKE with pattern percent-pat-percent: ASCII case-insensitive
substring containment.  The patterns used by the rules are lowercase
literals, so only the subject is lowered.  NULL LIKE anything is NULL,
which the WHERE clause treats as no match. -/
def likeContains (pat : String) : Option String → Bool
  | none => false
  | some s => blockInside pat.toList (s.toList.map lowerChar)

/-- The test s starts with pat, on character lists (String.startsWith; also
SQLite LIKE with pattern pat-percent over the dotted-digit prefixes used by
the geo rule, where case folding is vacuous). -/
def strStarts (pat s : String) : Bool := blockAtHead pat.toList s.toList

/-- Failure vocabulary of the brute-force rule: status LIKE percent-fail,
denied or invalid (src/detection/rules.js). -/
def failureStatus (st : Option String) : Bool :=
  likeContains "fail" st || likeContains "denied" st || likeContains "invalid" st

/-- Success vocabulary of the off-hours rule: status LIKE percent-success
or percent-accepted, or status equal to success. -/
def successStatus (st : Option String) : Bool :=
  likeContains "success" st || likeContains "accepted" st || st == some "success"

/-- The trailing-window test datetime(timestamp) > datetime(now, minus w
seconds): strictly newer than now - w. -/
def inWindow (now w t : Int) : Bool := now - w < t

/-- SQL MIN(timestamp) over a group (0 is never used: every group this is
applied to is nonempty). -/
def minTs : List LogEvent → Int
  | [] => 0
  | e :: es => (es.map (fun x => x.timestamp)).foldl min e.timestamp

/-- SQL MAX(timestamp) over a group. -/
def maxTs : List LogEvent → Int
  | [] => 0
  | e :: es => (es.map (fun x => x.timestamp)).foldl max e.timestamp

/-- The rows of a GROUP BY source_ip group for a given ip value. -/
def groupIP (evs : List LogEvent) (ip : String) : List LogEvent :=
  evs.filter (fun e => e.source_ip == some ip)

/-- The distinct source_ip values occurring in a row list (the keys
produced by GROUP BY source_ip over rows whose source_ip is not null). -/
def distinctIPs (evs : List LogEvent) : List String :=
  (evs.filterMap (fun e => e.source_ip)).dedup

/-- The rows of a GROUP BY username group for a given username value. -/
def groupUser (evs : List LogEvent) (u : String) : List LogEvent :=
  evs.filter (fun e => e.username == some u)

/-- The distinct username values occurring in a row list. -/
def distinctUsers (evs : List LogEvent) : List String :=
  (evs.filterMap (fun e => e.username)).dedup

/-- Brute-force rule, rows feeding the by-IP pass: failure status, source_ip
not null, inside the trailing 300-second window. -/
def bfIPEvents (now : Int) (logs : List LogEvent) : List LogEvent :=
  logs.filter (fun e => failureStatus e.status && e.source_ip.isSome && inWindow now 300 e.timestamp)

/-- Brute-force rule, rows feeding the by-username pass. -/
def bfUserEvents (now : Int) (logs : List LogEvent) : List LogEvent :=
  logs.filter (fun e => failureStatus e.status && e.username.isSome && inWindow now 300 e.timestamp)

/-- The alert inserted for an IP group of the brute-force rule. -/
def mkBFIPAlert (ip : String) (g : List LogEvent) : Alert :=
  { alert_type := "brute_force"
    severity := "high"
    title := "Brute Force Attack Detected from " ++ ip
    description := "Detected " ++ toString g.length ++ " failed login attempts from IP " ++ ip ++ " within 5 minutes"
    affected_entity := some ip
    source_ip := some ip
    event_count := g.length
    first_seen := minTs g
    last_seen := maxTs g }

/-- The alert inserted for a username group.  The source_ip column is a
non-grouped selected column; SQLite supplies it from one row of the group,
modelled as the first row. -/
def mkBFUserAlert (u : String) (g : List LogEvent) : Alert :=
  { alert_type := "brute_force"
    severity := "high"
    title := "Brute Force Attack on Account " ++ u
    description := "Detected " ++ toString g.length ++ " failed login attempts for user " ++ u ++ " within 5 minutes"
    affected_entity := some u
    source_ip := (match g with | [] => none | e :: _ => e.source_ip)
    event_count := g.length
    first_seen := minTs g
    last_seen := maxTs g }

/-- The IP-keyed pass of detectBruteForce: one alert per source_ip group of
at least threshold 5 rows. -/
def detectBruteForceIP (now : Int) (logs : List LogEvent) : List Alert :=
  let evs := bfIPEvents now logs
  ((distinctIPs evs).filter (fun ip => 5 ≤ (groupIP evs ip).length)).map
    (fun ip => mkBFIPAlert ip (groupIP evs ip))

/-- The username-keyed pass of detectBruteForce. -/
def detectBruteForceUser (now : Int) (logs : List LogEvent) : List Alert :=
  let evs := bfUserEvents now logs
  ((distinctUsers evs).filter (fun u => 5 ≤ (groupUser evs u).length)).map
    (fun u => mkBFUserAlert u (groupUser evs u))

/-- detectBruteForce: the IP pass followed by the username pass. -/
def detectBruteForce (now : Int) (logs : List LogEvent) : List Alert :=
  detectBruteForceIP now logs ++ detectBruteForceUser now logs

/-- strftime format H applied to a stored ISO timestamp, on the epoch-second
embedding: the UTC hour of day. -/
def hourOfDay (t : Int) : Int := (t.emod 86400).ediv 3600

/-- strftime format w: weekday with 0 = Sunday.  Epoch day zero was a
Thursday, hence the offset 4. -/
def weekdayOf (t : Int) : Int := ((t.ediv 86400) + 4).emod 7

/-- JS template interpolation of a possibly null value. -/
def jsTemplate : Option String → String
  | some s => s
  | none => "null"

/-- JS expression v or-else d for a string value: d when v is null,
undefined or empty. -/
def jsStringOr (v : Option String) (d : String) : String :=
  match v with
  | some s => if s = "" then d else s
  | none => d

/-- The WHERE clause of detectOffHoursAccess: success vocabulary, hour of
day before 9 or at least 18 or weekday Saturday or Sunday, inside the
trailing one-day window. -/
def offHoursQualifies (now : Int) (e : LogEvent) : Bool :=
  successStatus e.status &&
  (hourOfDay e.timestamp < 9 || 18 ≤ hourOfDay e.timestamp ||
   weekdayOf e.timestamp == 0 || weekdayOf e.timestamp == 6) &&
  inWindow now 86400 e.timestamp

/-- The alert inserted for one qualifying off-hours row. -/
def mkOffHoursAlert (e : LogEvent) : Alert :=
  { alert_type := "off_hours_access"
    severity := "medium"
    title := "Off-Hours Access by " ++ jsStringOr e.username "Unknown User"
    description := "Successful login detected outside business hours from IP " ++ jsTemplate e.source_ip
    affected_entity := e.username
    source_ip := e.source_ip
    event_count := 1
    first_seen := e.timestamp
    last_seen := e.timestamp }

/-- detectOffHoursAccess: one alert per qualifying row, no grouping. -/
def detectOffHoursAccess (now : Int) (logs : List LogEvent) : List Alert :=
  (logs.filter (offHoursQualifies now)).map mkOffHoursAlert

/-- Witness events for the off-hours rule: a success at 02:00 UTC on
Wednesday 2025-10-15, a success at 10:00 the same day, a failed login at
02:00 the same day, and a success at 10:00 on Sunday 2025-10-19. -/
def evSuccess02 : LogEvent :=
  { timestamp := 1760493600, event_type := some "login", username := some "alice",
    source_ip := some "203.0.113.45", destination_ip := none,
    status := some "success", message := none, raw_data := "w1" }

def evSuccess10 : LogEvent :=
  { timestamp := 1760522400, event_type := some "login", username := some "charlie",
    source_ip := some "172.16.0.5", destination_ip := none,
    status := some "success", message := none, raw_data := "w2" }

def evFailed02 : LogEvent :=
  { timestamp := 1760493600, event_type := some "login", username := some "david",
    source_ip := some "192.168.1.105", destination_ip := none,
    status := some "failed", message := none, raw_data := "w3" }

def evSundaySuccess : LogEvent :=
  { timestamp := 1760868000, event_type := some "login", username := some "bob",
    source_ip := some "198.51.100.22", destination_ip := none,
    status := some "success", message := none, raw_data := "w4" }

/-- A reputation assessment: the value part of an ip_reputation row and
also the shape of the object returned by fetchFromAbuseIPDB.  The
abuse_confidence_score and total_reports are Option Nat, with none playing
the role of the JS NaN produced when parseInt meets a non-numeric octet.
The persisted row stores the whitelist flag as the integer 1 or 0 encoding
this boolean, and additionally carries last_checked (kept in CacheRow). -/
structure RepFields where
  ip_address : String
  abuse_confidence_score : Option Nat
  country_code : Option String
  usage_type : Option String
  is_whitelisted : Bool
  total_reports : Option Nat
  raw_data : String
deriving Repr, DecidableEq

/-- ASCII digit test. -/
def isDigitCh (c : Char) : Bool := 48 ≤ c.toNat && c.toNat ≤ 57

/-- JS parseInt on the decimal strings that occur as dotted-quad octets:
the longest leading digit run, NaN (none) when there is none. -/
def jsParseIntDigits (cs : List Char) : Option Nat :=
  let ds := cs.takeWhile isDigitCh
  if ds.isEmpty then none
  else some (ds.foldl (fun a c => 10 * a + (c.toNat - 48)) 0)

/-- JS String.split on a one-character separator. -/
def splitOnChar (sep : Char) : List Char → List (List Char)
  | [] => [[]]
  | c :: cs =>
    if c == sep then [] :: splitOnChar sep cs
    else
      match splitOnChar sep cs with
      | [] => [[c]]
      | g :: gs => (c :: g) :: gs

/-- parseInt(octets[3] or 0): the fourth dot-separated component of the
address; a missing or empty component is the JS falsy branch giving 0. -/
def lastOctetOf (ip : String) : Option Nat :=
  match (splitOnChar '.' ip.toList).get? 3 with
  | none => some 0
  | some cs => if cs.isEmpty then some 0 else jsParseIntDigits cs

/-- The private-range test of generateStubReputation, prefix by prefix as
the source writes it.  Note the bare prefix 172.2, which also matches
172.2.x, 172.20.x through 172.29.x and 172.200.x through 172.255.x. -/
def stubIsPrivate (ip : String) : Bool :=
  strStarts "10." ip || strStarts "192.168." ip || strStarts "172.16." ip ||
  strStarts "172.17." ip || strStarts "172.18." ip || strStarts "172.19." ip ||
  strStarts "172.2" ip || strStarts "172.30." ip || strStarts "172.31." ip

/-- Rendering of a possibly-NaN number inside the stub raw_data blob. -/
def optNatText : Option Nat → String
  | some n => toString n
  | none => "NaN"

/-- Stands for the JSON.stringify audit blob the stub attaches as raw_data;
an opaque string never inspected by any rule. -/
def stubRawData (ip : String) (score reports : Option Nat) (priv : Bool) : String :=
  "\x7b ipAddress: " ++ ip ++ ", abuseConfidenceScore: " ++ optNatText score ++
  ", totalReports: " ++ optNatText reports ++ ", isWhitelisted: " ++ toString priv ++
  ", stub: true \x7d"

/-- The abuseScore computation of generateStubReputation: 0 for private
addresses, otherwise banded by the last octet, with the NaN of a
non-numeric octet propagating as none. -/
def stubScoreOf (ip : String) : Option Nat :=
  if stubIsPrivate ip then some 0
  else
    match lastOctetOf ip with
    | some n =>
      if 200 < n then some (75 + n % 25)
      else if 100 < n then some (25 + n % 25)
      else some (n % 15)
    | none => none

/-- The totalReports computation of generateStubReputation, banded in step
with the score. -/
def stubReportsOf (ip : String) : Option Nat :=
  if stubIsPrivate ip then some 0
  else
    match lastOctetOf ip with
    | some n =>
      if 200 < n then some (50 + n % 50)
      else if 100 < n then some (10 + n % 20)
      else some (n % 5)
    | none => none

/-- generateStubReputation: the deterministic fallback record.  Private
addresses score 0 and are whitelisted; others are banded by the last
octet. -/
def generateStubReputation (ip : String) : RepFields :=
  { ip_address := ip
    abuse_confidence_score := stubScoreOf ip
    country_code := if stubIsPrivate ip then none else some "US"
    usage_type :=
      if stubIsPrivate ip then some "Data Center/Web Hosting/Transit"
      else some "Residential"
    is_whitelisted := stubIsPrivate ip
    total_reports := stubReportsOf ip
    raw_data := stubRawData ip (stubScoreOf ip) (stubReportsOf ip) (stubIsPrivate ip) }

/-- The private-range test as claim C2 words it: exactly the prefixes 10.,
192.168., and 172.16. through 172.31. -/
def specIsPrivate (ip : String) : Bool :=
  strStarts "10." ip || strStarts "192.168." ip ||
  (List.range 16).any (fun k => strStarts ("172." ++ toString (16 + k) ++ ".") ip)

/-- The three risk bands claim C2 asserts for a non-private address, as a
predicate on the produced record. -/
def specStubBand (ip : String) (r : RepFields) : Prop :=
  match lastOctetOf ip with
  | some n =>
    if 200 < n then ∃ k, r.abuse_confidence_score = some k ∧ 75 ≤ k ∧ k ≤ 99
    else if 100 < n then ∃ k, r.abuse_confidence_score = some k ∧ 25 ≤ k ∧ k ≤ 49
    else ∃ k, r.abuse_confidence_score = some k ∧ k ≤ 14
  | none => True

/-- Claim C2 as stated: the private set is exactly the spec-worded one,
private addresses get score 0 and the whitelist mark, all others are
banded by the last octet. -/
def specStubClaimC2 : Prop :=
  ∀ ip : String,
    (specIsPrivate ip = true →
      (generateStubReputation ip).abuse_confidence_score = some 0 ∧
      (generateStubReputation ip).is_whitelisted = true) ∧
    (specIsPrivate ip = false → specStubBand ip (generateStubReputation ip))

/-- One persisted ip_reputation row: the reputation fields plus the
last_checked column written by datetime(now) on insert and update. -/
structure CacheRow where
  fields : RepFields
  last_checked : Int
deriving Repr, DecidableEq

/-- The ip_reputation table. -/
abbrev RepCache := List CacheRow

/-- CACHE_TTL_DAYS = 7, in the epoch-second embedding. -/
def ttlSeconds : Int := 7 * 86400

/-- The freshness test of the cache SELECT: datetime(last_checked) >
datetime(now, minus 7 days). -/
def freshAt (now : Int) (r : CacheRow) : Bool := now - ttlSeconds < r.last_checked

/-- Outcome of one call to the external provider.  Every non-success path
of fetchFromAbuseIPDB (thrown fetch error, HTTP 429, other non-2xx status,
or a 2xx body without a data member) ends in the same catch-and-stub
behaviour, collapsed into the failure constructor. -/
inductive ProviderOutcome where
  | success (score : Nat) (country : Option String) (usage : Option String)
      (whitelisted : Bool) (reports : Nat) (raw : String)
  | failure
deriving Repr, DecidableEq

/-- What fetchFromAbuseIPDB returns, together with whether an outbound
network request was attempted. -/
structure FetchResult where
  record : RepFields
  networkAttempted : Bool
deriving Repr, DecidableEq

/-- fetchFromAbuseIPDB: without a configured key the stub is returned with
no network attempt; with a key the provider is consulted and any failure
is absorbed by the stub. -/
def fetchFromAbuseIPDB (hasKey : Bool) (provider : String → ProviderOutcome)
    (ip : String) : FetchResult :=
  if hasKey then
    match provider ip with
    | ProviderOutcome.success sc c u w r raw =>
      { record :=
          { ip_address := ip, abuse_confidence_score := some sc, country_code := c,
            usage_type := u, is_whitelisted := w, total_reports := some r,
            raw_data := raw }
        networkAttempted := true }
    | ProviderOutcome.failure =>
      { record := generateStubReputation ip, networkAttempted := true }
  else { record := generateStubReputation ip, networkAttempted := false }

/-- Result of one getIPReputationWithCache call: the returned reputation,
the table afterwards, and whether the call attempted the network, read the
cache, and was answered by a fresh cached row. -/
structure LookupResult where
  result : Option RepFields
  state : RepCache
  networkAttempted : Bool
  cacheRead : Bool
  cacheHit : Bool
deriving Repr, DecidableEq

/-- The store step after a fetch: UPDATE of every row of that ip when one
exists (the existence check ignores freshness), INSERT otherwise; both set
last_checked to now. -/
def upsertReputation (now : Int) (v : RepFields) (st : RepCache) : RepCache :=
  if st.any (fun r => r.fields.ip_address == v.ip_address) then
    st.map (fun r =>
      if r.fields.ip_address == v.ip_address then
        { fields := v, last_checked := now } else r)
  else st ++ [{ fields := v, last_checked := now }]

/-- getIPReputationWithCache: falsy addresses (null, undefined or empty)
return null at once; otherwise a fresh cached row is returned as is, and on
a miss the fetched or stubbed record is returned and upserted. -/
def getIPReputationWithCache (hasKey : Bool) (provider : String → ProviderOutcome)
    (now : Int) (st : RepCache) (ip : Option String) : LookupResult :=
  match ip with
  | none =>
    { result := none, state := st, networkAttempted := false,
      cacheRead := false, cacheHit := false }
  | some s =>
    if s = "" then
      { result := none, state := st, networkAttempted := false,
        cacheRead := false, cacheHit := false }
    else
      match st.find? (fun r => r.fields.ip_address == s && freshAt now r) with
      | some row =>
        { result := some row.fields, state := st, networkAttempted := false,
          cacheRead := true, cacheHit := true }
      | none =>
        let f := fetchFromAbuseIPDB hasKey provider s
        { result := some f.record, state := upsertReputation now f.record st,
          networkAttempted := f.networkAttempted, cacheRead := true, cacheHit := false }

/-- clearStaleCache: DELETE of every row with datetime(last_checked) at or
before datetime(now, minus 7 days); returns the remaining table and the
changes count. -/
def clearStaleCache (now : Int) (st : RepCache) : RepCache × Nat :=
  (st.filter (fun r => !(r.last_checked ≤ now - ttlSeconds)),
   (st.filter (fun r => r.last_checked ≤ now - ttlSeconds)).length)

/-- Claim C6 as stated: the eviction removes exactly the rows whose
last_checked strictly precedes now minus the TTL. -/
def specEvictClaimC6 : Prop :=
  ∀ (now : Int) (st : RepCache),
    (clearStaleCache now st).1 = st.filter (fun r => !(r.last_checked < now - ttlSeconds)) ∧
    (clearStaleCache now st).2 = (st.filter (fun r => r.last_checked < now - ttlSeconds)).length

/-- The JS Set-based deduplication, keeping first occurrences. -/
def dedupFirstAux (seen : List String) : List String → List String
  | [] => []
  | x :: xs =>
    if x ∈ seen then dedupFirstAux seen xs
    else x :: dedupFirstAux (x :: seen) xs

/-- Deduplication keeping first occurrences. -/
def dedupFirst (l : List String) : List String := dedupFirstAux [] l

/-- Result of enrichIPsBatch: the ip-to-reputation pairs in resolution
order, the table afterwards, the number of 250ms pauses performed, and the
number of outbound network attempts. -/
structure BatchResult where
  results : List (String × Option RepFields)
  state : RepCache
  delays : Nat
  networkAttempts : Nat
deriving Repr, DecidableEq

/-- The sequential loop of enrichIPsBatch.  After every lookup the code
pauses 250ms whenever an API key is configured, regardless of how the
lookup was resolved. -/
def enrichLoop (hasKey : Bool) (provider : String → ProviderOutcome) (now : Int) :
    RepCache → List String → BatchResult
  | st, [] => { results := [], state := st, delays := 0, networkAttempts := 0 }
  | st, ip :: rest =>
    let L := getIPReputationWithCache hasKey provider now st (some ip)
    let B := enrichLoop hasKey provider now L.state rest
    { results := (ip, L.result) :: B.results
      state := B.state
      delays := (if hasKey then 1 else 0) + B.delays
      networkAttempts := (if L.networkAttempted then 1 else 0) + B.networkAttempts }

/-- The truthy filter and Set deduplication applied to the input of
enrichIPsBatch. -/
def batchUnique (ips : List (Option String)) : List String :=
  dedupFirst ((ips.filterMap id).filter (fun s => !(s == "")))

/-- enrichIPsBatch over the deduplicated truthy addresses. -/
def enrichIPsBatch (hasKey : Bool) (provider : String → ProviderOutcome) (now : Int)
    (st : RepCache) (ips : List (Option String)) : BatchResult :=
  enrichLoop hasKey provider now st (batchUnique ips)

/-- Claim C8 as stated: the fixed pause happens only between successive
network calls, so the pauses number one fewer than the network attempts
(and none at all when every lookup is a cache hit or a no-network
fallback). -/
def specBatchDelayClaimC8 : Prop :=
  ∀ (hasKey : Bool) (provider : String → ProviderOutcome) (now : Int)
    (st : RepCache) (ips : List (Option String)),
    (enrichIPsBatch hasKey provider now st ips).delays =
      (enrichIPsBatch hasKey provider now st ips).networkAttempts - 1

/-- A concrete reputation value for counterexample tables. -/
def sampleRepA : RepFields := generateStubReputation "8.8.8.8"

/-- A second concrete reputation value. -/
def sampleRepB : RepFields := generateStubReputation "9.9.9.9"

/-- The suspicious prefixes of detectGeoAnomalies. -/
def geoRanges : List String := ["10.0.0.", "192.168.", "0.0.0."]

/-- source_ip LIKE range-percent, with NULL never matching. -/
def geoMatches (range : String) (e : LogEvent) : Bool :=
  match e.source_ip with
  | some s => strStarts range s
  | none => false

/-- Rows of one geo pass: prefix match inside the trailing day. -/
def geoEvents (now : Int) (logs : List LogEvent) (range : String) : List LogEvent :=
  logs.filter (fun e => geoMatches range e && inWindow now 86400 e.timestamp)

/-- The alert inserted for one geo group.  The username column is
non-grouped; SQLite supplies it from one row, modelled as the first. -/
def mkGeoAlert (ip : String) (g : List LogEvent) : Alert :=
  { alert_type := "geo_anomaly"
    severity := "medium"
    title := "Suspicious IP Range Detected: " ++ ip
    description := "Activity detected from potentially suspicious IP range. " ++
      toString g.length ++ " events recorded."
    affected_entity := (match g with | [] => none | e :: _ => e.username)
    source_ip := some ip
    event_count := g.length
    first_seen := minTs g
    last_seen := maxTs g }

/-- detectGeoAnomalies: for each configured prefix, one alert per distinct
matching source_ip. -/
def detectGeoAnomalies (now : Int) (logs : List LogEvent) : List Alert :=
  (geoRanges.map (fun range =>
    (distinctIPs (geoEvents now logs range)).map
      (fun ip => mkGeoAlert ip (groupIP (geoEvents now logs range) ip)))).flatten

/-- The JS comparison score >= k, false when the score is NaN. -/
def optGE (x : Option Nat) (k : Nat) : Bool :=
  match x with
  | some v => k ≤ v
  | none => false

/-- SELECT DISTINCT source_ip over the trailing day, nulls excluded. -/
def recentDistinctIPs (now : Int) (logs : List LogEvent) : List String :=
  distinctIPs (logs.filter (fun e => e.source_ip.isSome && inWindow now 86400 e.timestamp))

/-- The per-IP activity query of the high-risk rule. -/
def ipActivity (now : Int) (logs : List LogEvent) (ip : String) : List LogEvent :=
  logs.filter (fun e => e.source_ip == some ip && inWindow now 86400 e.timestamp)

/-- The alert inserted for one high-risk IP. -/
def mkHighRiskAlert (now : Int) (logs : List LogEvent) (ip : String) (rep : RepFields) :
    Alert :=
  { alert_type := "high_risk_ip"
    severity := if optGE rep.abuse_confidence_score 75 then "critical" else "high"
    title := "High-Risk IP Detected: " ++ ip
    description := "IP " ++ ip ++ " has an abuse confidence score of " ++
      optNatText rep.abuse_confidence_score ++ "% (" ++ optNatText rep.total_reports ++
      " reports). Country: " ++ jsStringOr rep.country_code "Unknown" ++ ". Usage: " ++
      jsStringOr rep.usage_type "Unknown" ++ ". Activity count: " ++
      toString (ipActivity now logs ip).length ++ " events."
    affected_entity := some ip
    source_ip := some ip
    event_count := (ipActivity now logs ip).length
    first_seen := minTs (ipActivity now logs ip)
    last_seen := maxTs (ipActivity now logs ip) }

/-- The skip-and-threshold test of the high-risk loop: a non-null,
non-whitelisted reputation with score at least 50. -/
def highRiskFilter (pr : String × Option RepFields) : Option RepFields :=
  match pr.2 with
  | some r =>
    if !r.is_whitelisted && optGE r.abuse_confidence_score 50 then some r else none
  | none => none

/-- detectHighRiskIPs: enrich the distinct recent addresses, then alert on
every non-whitelisted reputation scoring at least 50. -/
def detectHighRiskIPs (hasKey : Bool) (provider : String → ProviderOutcome) (now : Int)
    (st : RepCache) (logs : List LogEvent) : List Alert × RepCache :=
  let ips := recentDistinctIPs now logs
  if ips.isEmpty then ([], st)
  else
    let B := enrichIPsBatch hasKey provider now st (ips.map some)
    (B.results.filterMap (fun pr =>
      match highRiskFilter pr with
      | some r => some (mkHighRiskAlert now logs pr.1 r)
      | none => none), B.state)

/-- The aggregate returned by runAllDetections. -/
structure RunResult where
  brute_force : List Alert
  off_hours : List Alert
  geo_anomaly : List Alert
  high_risk_ip : List Alert
  total : Nat
deriving Repr, DecidableEq

/-- runAllDetections: the four rules in fixed order and the summed total. -/
def runAllDetections (hasKey : Bool) (provider : String → ProviderOutcome) (now : Int)
    (st : RepCache) (logs : List LogEvent) : RunResult × RepCache :=
  let bf := detectBruteForce now logs
  let oh := detectOffHoursAccess now logs
  let geo := detectGeoAnomalies now logs
  let hr := detectHighRiskIPs hasKey provider now st logs
  ({ brute_force := bf, off_hours := oh, geo_anomaly := geo, high_risk_ip := hr.1,
     total := bf.length + oh.length + geo.length + hr.1.length }, hr.2)

/-- Claim C4 as stated: whenever every provider call errors, the run
returns an empty high_risk_ip list. -/
def specRunAllClaimC4 : Prop :=
  ∀ (hasKey : Bool) (now : Int) (st : RepCache) (logs : List LogEvent),
    (runAllDetections hasKey (fun _ => ProviderOutcome.failure) now st logs).1.high_risk_ip
      = []

/-- The stub-score qualification the high-risk rule applies when every
resolution comes from the fallback generator. -/
def stubHighRiskQualifies (ip : String) : Bool :=
  !(generateStubReputation ip).is_whitelisted &&
  optGE (generateStubReputation ip).abuse_confidence_score 50

/-- A recent failed event from a public address whose fallback score lands
in the high band. -/
def evHighRisk : LogEvent :=
  { timestamp := 950, event_type := some "login", username := some "eve",
    source_ip := some "9.9.9.201", destination_ip := none,
    status := some "failed", message := none, raw_data := "hr1" }

/-- A raw ingestion record as the parsing layer hands it over: the JS
object properties normalizeLogEntry reads, each possibly absent (none),
null (none) or a string value; the properties named type and typ stand for
the JS properties type and action-adjacent lookups as in the source.  All
default to absent. -/
structure RawEntry where
  timestamp : Option String := none
  time : Option String := none
  datetime : Option String := none
  date : Option String := none
  event_type : Option String := none
  eventType : Option String := none
  type : Option String := none
  action : Option String := none
  username : Option String := none
  user : Option String := none
  account : Option String := none
  userid : Option String := none
  source_ip : Option String := none
  sourceIP : Option String := none
  src_ip : Option String := none
  ip : Option String := none
  clientIP : Option String := none
  destination_ip : Option String := none
  destIP : Option String := none
  dest_ip : Option String := none
  target_ip : Option String := none
  status : Option String := none
  result : Option String := none
  outcome : Option String := none
  message : Option String := none
  description : Option String := none
  msg : Option String := none
  details : Option String := none
deriving Repr, DecidableEq

/-- The JS or-else over string values: the left operand unless it is
falsy (absent, null or empty). -/
def jsOrS : Option String → Option String → Option String
  | some s, b => if s = "" then b else some s
  | none, b => b

/-- A JS or-chain a or b or c ... folded right, ending in null. -/
def jsChain (l : List (Option String)) : Option String :=
  l.foldr (fun a b => jsOrS a b) none

/-- One property rendered into the serialized audit blob. -/
def optFieldText (name : String) (v : Option String) : String :=
  match v with
  | some s => name ++ ": " ++ s ++ "; "
  | none => ""

/-- Stands for JSON.stringify(entry): an opaque serialization of the
original record, always a string. -/
def serializeEntry (e : RawEntry) : String :=
  "\x7b " ++ optFieldText "timestamp" e.timestamp ++ optFieldText "time" e.time ++
  optFieldText "datetime" e.datetime ++ optFieldText "date" e.date ++
  optFieldText "event_type" e.event_type ++ optFieldText "eventType" e.eventType ++
  optFieldText "type" e.type ++ optFieldText "action" e.action ++
  optFieldText "username" e.username ++ optFieldText "user" e.user ++
  optFieldText "account" e.account ++ optFieldText "userid" e.userid ++
  optFieldText "source_ip" e.source_ip ++ optFieldText "sourceIP" e.sourceIP ++
  optFieldText "src_ip" e.src_ip ++ optFieldText "ip" e.ip ++
  optFieldText "clientIP" e.clientIP ++ optFieldText "destination_ip" e.destination_ip ++
  optFieldText "destIP" e.destIP ++ optFieldText "dest_ip" e.dest_ip ++
  optFieldText "target_ip" e.target_ip ++ optFieldText "status" e.status ++
  optFieldText "result" e.result ++ optFieldText "outcome" e.outcome ++
  optFieldText "message" e.message ++ optFieldText "description" e.description ++
  optFieldText "msg" e.msg ++ optFieldText "details" e.details ++ "\x7d"

/-- The normalized record produced by normalizeLogEntry: timestamp and
raw_data always present (never null), event_type defaulted, the rest
nullable. -/
structure NormalizedEvent where
  timestamp : String
  event_type : String
  username : Option String
  source_ip : Option String
  destination_ip : Option String
  status : Option String
  message : Option String
  raw_data : String
deriving Repr, DecidableEq

/-- normalizeLogEntry, with nowStr the ISO rendering of the current time
used when every timestamp alternative is falsy. -/
def normalizeLogEntry (nowStr : String) (e : RawEntry) : NormalizedEvent :=
  { timestamp := (jsChain [e.timestamp, e.time, e.datetime, e.date]).getD nowStr
    event_type := (jsChain [e.event_type, e.eventType, e.type, e.action]).getD "unknown"
    username := jsChain [e.username, e.user, e.account, e.userid]
    source_ip := jsChain [e.source_ip, e.sourceIP, e.src_ip, e.ip, e.clientIP]
    destination_ip := jsChain [e.destination_ip, e.destIP, e.dest_ip, e.target_ip]
    status := jsChain [e.status, e.result, e.outcome]
    message := jsChain [e.message, e.description, e.msg, e.details]
    raw_data := serializeEntry e }

/-- A string-valued JS property is falsy when absent, null or empty. -/
def falsyS (v : Option String) : Prop := v = none ∨ v = some ""

/-- The body of the insertMany transaction: normalize and insert each entry
in order; insertErrors models a storage-engine error thrown by
insertLog.run on a given row, which aborts the walk. -/
def runInserts (nowStr : String) (insertErrors : NormalizedEvent → Bool) :
    List NormalizedEvent → List RawEntry → Option (List NormalizedEvent)
  | store, [] => some store
  | store, e :: es =>
    if insertErrors (normalizeLogEntry nowStr e) then none
    else runInserts nowStr insertErrors (store ++ [normalizeLogEntry nowStr e]) es

/-- insertMany wrapped in db.transaction: better-sqlite3 commits when the
wrapped function returns and rolls the whole batch back when it throws. -/
def insertManyTx (nowStr : String) (insertErrors : NormalizedEvent → Bool)
    (store : List NormalizedEvent) (entries : List RawEntry) : List NormalizedEvent :=
  match runInserts nowStr insertErrors store entries with
  | some store2 => store2
  | none => store

/-- Sample raw entries for the ingestion witnesses. -/
def rawEntryA : RawEntry :=
  { timestamp := some "2025-10-15T02:00:00Z", event_type := some "login",
    user := some "alice", ip := some "203.0.113.45", status := some "success" }

/-- A raw entry with every property absent. -/
def rawEntryEmpty : RawEntry := {}

/-- A raw entry whose normalization the witness insert rejects. -/
def rawEntryBoom : RawEntry := { event_type := some "boom" }

/-- Sample event rows used by the concrete witnesses: five failed logins
from one IP inside the window and three from another. -/
def sampleLogsC1 : List LogEvent :=
  [ { timestamp := 901, event_type := some "login", username := some "root",
      source_ip := some "1.2.3.4", destination_ip := none,
      status := some "failed", message := none, raw_data := "r1" },
    { timestamp := 910, event_type := some "login", username := some "root",
      source_ip := some "1.2.3.4", destination_ip := none,
      status := some "Failed", message := none, raw_data := "r2" },
    { timestamp := 920, event_type := some "login", username := some "admin",
      source_ip := some "1.2.3.4", destination_ip := none,
      status := some "denied", message := none, raw_data := "r3" },
    { timestamp := 930, event_type := some "login", username := some "admin",
      source_ip := some "1.2.3.4", destination_ip := none,
      status := some "invalid password", message := none, raw_data := "r4" },
    { timestamp := 950, event_type := some "login", username := some "root",
      source_ip := some "1.2.3.4", destination_ip := none,
      status := some "failed", message := none, raw_data := "r5" },
    { timestamp := 940, event_type := some "login", username := some "bob",
      source_ip := some "5.6.7.8", destination_ip := none,
      status := some "failed", message := none, raw_data := "r6" },
    { timestamp := 941, event_type := some "login", username := some "bob",
      source_ip := some "5.6.7.8", destination_ip := none,
      status := some "failed", message := none, raw_data := "r7" },
    { timestamp := 942, event_type := some "login", username := some "bob",
      source_ip := some "5.6.7.8", destination_ip := none,
      status := some "failed", message := none, raw_data := "r8" } ]

theorem foldl_min_le (l : List Int) (a : Int) :
    l.foldl min a ≤ a ∧ ∀ x ∈ l, l.foldl min a ≤ x := by
  induction l generalizing a with
  | nil => simp
  | cons y ys ih =>
    have h := ih (min a y)
    refine ⟨le_trans h.1 (min_le_left a y), ?_⟩
    intro x hx
    rcases List.mem_cons.mp hx with rfl | hx
    · exact le_trans h.1 (min_le_right a x)
    · exact h.2 x hx

theorem foldl_min_mem (l : List Int) (a : Int) :
    l.foldl min a = a ∨ l.foldl min a ∈ l := by
  induction l generalizing a with
  | nil => simp
  | cons y ys ih =>
    show ys.foldl min (min a y) = a ∨ ys.foldl min (min a y) ∈ y :: ys
    rcases ih (min a y) with h | h
    · rcases min_cases a y with ⟨hm, _⟩ | ⟨hm, _⟩
      · exact Or.inl (h.trans hm)
      · exact Or.inr (by rw [h, hm]; exact List.mem_cons_self y ys)
    · exact Or.inr (List.mem_cons_of_mem _ h)

theorem foldl_max_le (l : List Int) (a : Int) :
    a ≤ l.foldl max a ∧ ∀ x ∈ l, x ≤ l.foldl max a := by
  induction l generalizing a with
  | nil => simp
  | cons y ys ih =>
    have h := ih (max a y)
    refine ⟨le_trans (le_max_left a y) h.1, ?_⟩
    intro x hx
    rcases List.mem_cons.mp hx with rfl | hx
    · exact le_trans (le_max_right a x) h.1
    · exact h.2 x hx

theorem foldl_max_mem (l : List Int) (a : Int) :
    l.foldl max a = a ∨ l.foldl max a ∈ l := by
  induction l generalizing a with
  | nil => simp
  | cons y ys ih =>
    show ys.foldl max (max a y) = a ∨ ys.foldl max (max a y) ∈ y :: ys
    rcases ih (max a y) with h | h
    · rcases max_cases a y with ⟨hm, _⟩ | ⟨hm, _⟩
      · exact Or.inl (h.trans hm)
      · exact Or.inr (by rw [h, hm]; exact List.mem_cons_self y ys)
    · exact Or.inr (List.mem_cons_of_mem _ h)

theorem minTs_spec (g : List LogEvent) (hg : g ≠ []) :
    minTs g ∈ g.map (fun e => e.timestamp) ∧ ∀ e ∈ g, minTs g ≤ e.timestamp := by
  match g with
  | [] => exact absurd rfl hg
  | e :: es =>
    have h1 := foldl_min_le (es.map (fun x => x.timestamp)) e.timestamp
    have h2 := foldl_min_mem (es.map (fun x => x.timestamp)) e.timestamp
    constructor
    · rcases h2 with h | h
      · simp [minTs, h]
      · simp only [List.map_cons, List.mem_cons]
        exact Or.inr (by simpa [minTs] using h)
    · intro x hx
      rcases List.mem_cons.mp hx with rfl | hx
      · exact h1.1
      · exact h1.2 _ (List.mem_map_of_mem _ hx)

theorem maxTs_spec (g : List LogEvent) (hg : g ≠ []) :
    maxTs g ∈ g.map (fun e => e.timestamp) ∧ ∀ e ∈ g, e.timestamp ≤ maxTs g := by
  match g with
  | [] => exact absurd rfl hg
  | e :: es =>
    have h1 := foldl_max_le (es.map (fun x => x.timestamp)) e.timestamp
    have h2 := foldl_max_mem (es.map (fun x => x.timestamp)) e.timestamp
    constructor
    · rcases h2 with h | h
      · simp [maxTs, h]
      · simp only [List.map_cons, List.mem_cons]
        exact Or.inr (by simpa [maxTs] using h)
    · intro x hx
      rcases List.mem_cons.mp hx with rfl | hx
      · exact h1.1
      · exact h1.2 _ (List.mem_map_of_mem _ hx)

theorem countP_beq_of_nodup {α : Type} [DecidableEq α] (l : List α) (hl : l.Nodup) (a : α) :
    l.countP (fun b => b == a) = if a ∈ l then 1 else 0 := by
  induction l with
  | nil => simp
  | cons x xs ih =>
    rcases List.nodup_cons.mp hl with ⟨hx, hxs⟩
    by_cases hxa : x = a
    · subst hxa
      simp [List.countP_cons, ih hxs, hx]
    · have hbeq : (x == a) = false := by simp [hxa]
      have hax : ¬ a = x := fun h => hxa h.symm
      simp [List.countP_cons, ih hxs, hbeq, List.mem_cons, hax]

theorem mem_distinctIPs (evs : List LogEvent) (ip : String) :
    ip ∈ distinctIPs evs ↔ ∃ e ∈ evs, e.source_ip = some ip := by
  simp [distinctIPs, List.mem_dedup, List.mem_filterMap]

theorem groupIP_ne_nil (evs : List LogEvent) (ip : String)
    (h : groupIP evs ip ≠ []) : ∃ e ∈ evs, e.source_ip = some ip := by
  rcases List.exists_mem_of_ne_nil _ h with ⟨e, he⟩
  rcases List.mem_filter.mp he with ⟨hmem, hbeq⟩
  exact ⟨e, hmem, by simpa using hbeq⟩

theorem detectBruteForceIP_count (now : Int) (logs : List LogEvent) (ip : String) :
    (detectBruteForceIP now logs).countP (fun a => a.affected_entity == some ip) =
      if ip ∈ (distinctIPs (bfIPEvents now logs)).filter
          (fun i => 5 ≤ (groupIP (bfIPEvents now logs) i).length) then 1 else 0 := by
  unfold detectBruteForceIP
  rw [List.countP_map]
  have hnd : ((distinctIPs (bfIPEvents now logs)).filter
      (fun i => 5 ≤ (groupIP (bfIPEvents now logs) i).length)).Nodup :=
    (List.nodup_dedup _).filter _
  have hfun : ((fun a => a.affected_entity == some ip) ∘
      (fun i => mkBFIPAlert i (groupIP (bfIPEvents now logs) i))) =
      (fun i => i == ip) := by
    funext i
    show ((some i : Option String) == some ip) = (i == ip)
    rfl
  rw [hfun]
  exact countP_beq_of_nodup _ hnd ip

/-- Claim C1: for every group of N events with failure status, the same
non-null source_ip and timestamps inside the trailing 300-second window,
the brute-force rule emits exactly one IP-keyed alert when N is at least 5,
with event_count N, severity high, first_seen the minimum and last_seen the
maximum timestamp of the group, and emits zero IP-keyed alerts when N is at
most 4. -/
theorem C1_bruteforce_ip_threshold (now : Int) (logs : List LogEvent) (ip : String) :
    (5 ≤ (groupIP (bfIPEvents now logs) ip).length →
      (detectBruteForceIP now logs).countP (fun a => a.affected_entity == some ip) = 1 ∧
      ∀ a ∈ detectBruteForceIP now logs, a.affected_entity = some ip →
        a.severity = "high" ∧
        a.event_count = (groupIP (bfIPEvents now logs) ip).length ∧
        a.first_seen ∈ (groupIP (bfIPEvents now logs) ip).map (fun e => e.timestamp) ∧
        (∀ e ∈ groupIP (bfIPEvents now logs) ip, a.first_seen ≤ e.timestamp) ∧
        a.last_seen ∈ (groupIP (bfIPEvents now logs) ip).map (fun e => e.timestamp) ∧
        (∀ e ∈ groupIP (bfIPEvents now logs) ip, e.timestamp ≤ a.last_seen)) ∧
    ((groupIP (bfIPEvents now logs) ip).length ≤ 4 →
      (detectBruteForceIP now logs).countP (fun a => a.affected_entity == some ip) = 0) := by
  set evs := bfIPEvents now logs with hevs
  constructor
  · intro h5
    have hne : groupIP evs ip ≠ [] := by
      intro hnil
      rw [hnil] at h5
      simp at h5
    have hmem : ip ∈ (distinctIPs evs).filter (fun i => 5 ≤ (groupIP evs i).length) := by
      rw [List.mem_filter]
      refine ⟨(mem_distinctIPs evs ip).mpr (groupIP_ne_nil evs ip hne), by simpa using h5⟩
    refine ⟨by rw [detectBruteForceIP_count, if_pos hmem], ?_⟩
    intro a ha haff
    rcases List.mem_map.mp ha with ⟨i, hi, rfl⟩
    have hii : i = ip := by
      have : (some i : Option String) = some ip := haff
      exact Option.some.inj this
    subst hii
    have hmin := minTs_spec (groupIP evs i) hne
    have hmax := maxTs_spec (groupIP evs i) hne
    exact ⟨rfl, rfl, hmin.1, hmin.2, hmax.1, hmax.2⟩
  · intro h4
    have hnmem : ip ∉ (distinctIPs evs).filter (fun i => 5 ≤ (groupIP evs i).length) := by
      intro hmem
      have := (List.mem_filter.mp hmem).2
      have h5 : 5 ≤ (groupIP evs ip).length := by simpa using this
      omega
    rw [detectBruteForceIP_count, if_neg hnmem]

theorem C1_bruteforce_ip_threshold_witness :
    (detectBruteForceIP 1000 sampleLogsC1).countP
        (fun a => a.affected_entity == some "1.2.3.4") = 1 ∧
    (detectBruteForceIP 1000 sampleLogsC1).countP
        (fun a => a.affected_entity == some "5.6.7.8") = 0 := by
  refine ⟨((C1_bruteforce_ip_threshold 1000 sampleLogsC1 "1.2.3.4").1 (by decide)).1, ?_⟩
  exact (C1_bruteforce_ip_threshold 1000 sampleLogsC1 "5.6.7.8").2 (by decide)

/-- Claim C5: over the trailing 24 hours the off-hours rule emits one
severity-medium alert per success-status event whose hour of day is outside
9 to 18 or whose weekday is Saturday or Sunday, zero alerts for success
events inside business hours, zero alerts for events without success
status (in particular status failed) regardless of hour, and one alert for
a Sunday success regardless of hour; no grouping, one alert per qualifying
event. -/
theorem C5_offhours_per_event (now : Int) (logs : List LogEvent) :
    (detectOffHoursAccess now logs).length = logs.countP (offHoursQualifies now) ∧
    (∀ a ∈ detectOffHoursAccess now logs, a.severity = "medium" ∧ a.event_count = 1) ∧
    (∀ e : LogEvent, successStatus e.status = true → inWindow now 86400 e.timestamp = true →
      (offHoursQualifies now e = true ↔
        (hourOfDay e.timestamp < 9 ∨ 18 ≤ hourOfDay e.timestamp ∨
         weekdayOf e.timestamp = 0 ∨ weekdayOf e.timestamp = 6))) ∧
    (∀ e : LogEvent, successStatus e.status = false → offHoursQualifies now e = false) ∧
    (∀ e : LogEvent, e.status = some "failed" → offHoursQualifies now e = false) ∧
    (∀ e : LogEvent, successStatus e.status = true → inWindow now 86400 e.timestamp = true →
      weekdayOf e.timestamp = 0 → offHoursQualifies now e = true) := by
  have hsucc_failed : successStatus (some "failed") = false := by decide
  refine ⟨?_, ?_, ?_, ?_, ?_, ?_⟩
  · rw [detectOffHoursAccess, List.length_map, ← List.countP_eq_length_filter]
  · intro a ha
    rcases List.mem_map.mp ha with ⟨e, _, rfl⟩
    exact ⟨rfl, rfl⟩
  · intro e hs hw
    simp [offHoursQualifies, hs, hw]
    tauto
  · intro e hs
    simp [offHoursQualifies, hs]
  · intro e hst
    have : successStatus e.status = false := by rw [hst]; exact hsucc_failed
    simp [offHoursQualifies, this]
  · intro e hs hw hsun
    simp [offHoursQualifies, hs, hw, hsun]

theorem C5_offhours_per_event_witness :
    offHoursQualifies 1760530000 evSuccess02 = true ∧
    offHoursQualifies 1760530000 evSuccess10 = false ∧
    offHoursQualifies 1760530000 evFailed02 = false ∧
    offHoursQualifies 1760871600 evSundaySuccess = true := by
  refine ⟨?_, ?_, ?_, ?_⟩
  · exact ((C5_offhours_per_event 1760530000 []).2.2.1 evSuccess02
      (by decide) (by decide)).mpr (Or.inl (by decide))
  · cases hq : offHoursQualifies 1760530000 evSuccess10
    · rfl
    · exfalso
      have hd := ((C5_offhours_per_event 1760530000 []).2.2.1 evSuccess10
        (by decide) (by decide)).mp hq
      revert hd
      decide
  · exact (C5_offhours_per_event 1760530000 []).2.2.2.2.1 evFailed02 rfl
  · exact (C5_offhours_per_event 1760871600 []).2.2.2.2.2 evSundaySuccess
      (by decide) (by decide) (by decide)

theorem lookup_some_unfold (hasKey : Bool) (provider : String → ProviderOutcome)
    (now : Int) (st : RepCache) (s : String) (hs : ¬ s = "") :
    getIPReputationWithCache hasKey provider now st (some s) =
      match st.find? (fun r => r.fields.ip_address == s && freshAt now r) with
      | some row =>
        { result := some row.fields, state := st, networkAttempted := false,
          cacheRead := true, cacheHit := true }
      | none =>
        { result := some (fetchFromAbuseIPDB hasKey provider s).record,
          state := upsertReputation now (fetchFromAbuseIPDB hasKey provider s).record st,
          networkAttempted := (fetchFromAbuseIPDB hasKey provider s).networkAttempted,
          cacheRead := true, cacheHit := false } := by
  simp only [getIPReputationWithCache]
  rw [if_neg hs]

/-- Claim C2 counterexample: at the address 172.2.0.201 the claim demands
the non-private banding (last octet 201, band 75 to 99), but the source
private test matches the bare prefix 172.2, so the code returns score 0 and
the whitelist mark. -/
theorem C2_counterexample : ¬ specStubClaimC2 := by
  intro h
  have hb := (h "172.2.0.201").2 (by decide)
  have hoct : lastOctetOf "172.2.0.201" = some 201 := by decide
  unfold specStubBand at hb
  rw [hoct] at hb
  simp only [show ((200 : Nat) < 201) = True from by norm_num, if_true] at hb
  obtain ⟨k, hk, h75, _⟩ := hb
  have hsc : (generateStubReputation "172.2.0.201").abuse_confidence_score = some 0 := by
    decide
  rw [hsc] at hk
  have hk0 : (0 : Nat) = k := Option.some.inj hk
  omega

/-- Claim C2 amended: the fallback generator scores 0 and whitelists
exactly the addresses matching the source private prefixes - 10., 192.168.,
172.16. through 172.19., 172.30., 172.31., and the bare prefix 172.2
(hence also 172.2.x, 172.20-29.x and 172.200-255.x); every other address
is banded by its parsed last octet (over 200 gives 75-99, 101-200 gives
25-49, at most 100 gives 0-14) with a synthetic report count; and an
uncredentialed lookup of 10.0.0.5 attempts no network call and yields a
whitelisted score-0 record. -/
theorem C2_stub_amended (ip : String) :
    (stubIsPrivate ip = true →
      (generateStubReputation ip).abuse_confidence_score = some 0 ∧
      (generateStubReputation ip).is_whitelisted = true) ∧
    (stubIsPrivate ip = false →
      (generateStubReputation ip).is_whitelisted = false ∧
      ∀ n, lastOctetOf ip = some n →
        ∃ k, (generateStubReputation ip).abuse_confidence_score = some k ∧
          (200 < n → 75 ≤ k ∧ k ≤ 99) ∧
          (100 < n → n ≤ 200 → 25 ≤ k ∧ k ≤ 49) ∧
          (n ≤ 100 → k ≤ 14) ∧
          ∃ m, (generateStubReputation ip).total_reports = some m) ∧
    (∀ (provider : String → ProviderOutcome) (now : Int) (st : RepCache),
      (getIPReputationWithCache false provider now st (some "10.0.0.5")).networkAttempted
        = false ∧
      ((∀ r ∈ st, r.fields.ip_address = "10.0.0.5" →
          r.fields.abuse_confidence_score = some 0 ∧ r.fields.is_whitelisted = true) →
        ∃ v, (getIPReputationWithCache false provider now st (some "10.0.0.5")).result
            = some v ∧
          v.abuse_confidence_score = some 0 ∧ v.is_whitelisted = true)) := by
  refine ⟨?_, ?_, ?_⟩
  · intro hp
    refine ⟨?_, hp⟩
    show stubScoreOf ip = some 0
    unfold stubScoreOf
    rw [if_pos hp]
  · intro hp
    have hnp : ¬ stubIsPrivate ip = true := by rw [hp]; exact Bool.false_ne_true
    refine ⟨hp, ?_⟩
    intro n hn
    have hsc : stubScoreOf ip =
        (if 200 < n then some (75 + n % 25)
         else if 100 < n then some (25 + n % 25) else some (n % 15)) := by
      unfold stubScoreOf
      rw [if_neg hnp, hn]
    have hrp : stubReportsOf ip =
        (if 200 < n then some (50 + n % 50)
         else if 100 < n then some (10 + n % 20) else some (n % 5)) := by
      unfold stubReportsOf
      rw [if_neg hnp, hn]
    show ∃ k, stubScoreOf ip = some k ∧ _
    by_cases h200 : 200 < n
    · rw [if_pos h200] at hsc hrp
      exact ⟨75 + n % 25, hsc, fun _ => by omega,
        fun h1 h2 => by omega, fun h1 => by omega, ⟨50 + n % 50, hrp⟩⟩
    · rw [if_neg h200] at hsc hrp
      by_cases h100 : 100 < n
      · rw [if_pos h100] at hsc hrp
        exact ⟨25 + n % 25, hsc, fun h1 => by omega,
          fun _ _ => by omega, fun h1 => by omega, ⟨10 + n % 20, hrp⟩⟩
      · rw [if_neg h100] at hsc hrp
        exact ⟨n % 15, hsc, fun h1 => by omega,
          fun h1 _ => by omega, fun _ => by omega, ⟨n % 5, hrp⟩⟩
  · intro provider now st
    have hs : ¬ ("10.0.0.5" : String) = "" := by decide
    rw [lookup_some_unfold false provider now st "10.0.0.5" hs]
    cases hf : st.find? (fun r => r.fields.ip_address == "10.0.0.5" && freshAt now r) with
    | none =>
      refine ⟨by simp [fetchFromAbuseIPDB], fun _ => ?_⟩
      exact ⟨generateStubReputation "10.0.0.5", by simp [fetchFromAbuseIPDB],
        by decide, by decide⟩
    | some row =>
      refine ⟨rfl, fun h => ?_⟩
      have hmem := List.mem_of_find?_eq_some hf
      have hpred := List.find?_some hf
      have hip : row.fields.ip_address = "10.0.0.5" := by
        have := (Bool.and_eq_true _ _).mp hpred
        exact eq_of_beq this.1
      rcases h row hmem hip with ⟨h0, hw⟩
      exact ⟨row.fields, rfl, h0, hw⟩

theorem C2_stub_amended_witness :
    (generateStubReputation "172.2.0.201").abuse_confidence_score = some 0 ∧
    (generateStubReputation "172.2.0.201").is_whitelisted = true ∧
    (getIPReputationWithCache false (fun _ => ProviderOutcome.failure) 0 []
        (some "10.0.0.5")).networkAttempted = false := by
  refine ⟨((C2_stub_amended "172.2.0.201").1 (by decide)).1,
          ((C2_stub_amended "172.2.0.201").1 (by decide)).2, ?_⟩
  exact ((C2_stub_amended "172.2.0.201").2.2 (fun _ => ProviderOutcome.failure) 0 []).1

/-- Claim C6 counterexample: a row whose last_checked sits exactly at now
minus the TTL does not strictly precede the cutoff, so the claim keeps it,
but the source DELETE uses at-or-before and removes it. -/
theorem C6_counterexample : ¬ specEvictClaimC6 := by
  intro h
  have hc := (h ttlSeconds [{ fields := sampleRepA, last_checked := 0 }]).2
  revert hc
  decide

/-- Claim C6 amended: the eviction deletes exactly the rows whose
last_checked is at or before now minus the TTL (boundary included), leaves
every strictly fresher row unchanged in all fields and in order, and
returns the number of rows removed. -/
theorem C6_evict_amended (now : Int) (st : RepCache) :
    (clearStaleCache now st).1 = st.filter (fun r => now - ttlSeconds < r.last_checked) ∧
    (clearStaleCache now st).2 = st.countP (fun r => r.last_checked ≤ now - ttlSeconds) ∧
    (∀ r ∈ st, now - ttlSeconds < r.last_checked → r ∈ (clearStaleCache now st).1) ∧
    (∀ r ∈ (clearStaleCache now st).1, r ∈ st ∧ now - ttlSeconds < r.last_checked) ∧
    st.length = (clearStaleCache now st).1.length + (clearStaleCache now st).2 := by
  have hcong : ∀ r ∈ st,
      (!(r.last_checked ≤ now - ttlSeconds) : Bool) =
        (now - ttlSeconds < r.last_checked : Bool) := by
    intro r _
    by_cases h : r.last_checked ≤ now - ttlSeconds
    · simp [h, not_lt.mpr h]
    · simp [h, lt_of_not_le h]
  have hfilt : (clearStaleCache now st).1 =
      st.filter (fun r => now - ttlSeconds < r.last_checked) :=
    List.filter_congr hcong
  refine ⟨hfilt, ?_, ?_, ?_, ?_⟩
  · exact (List.countP_eq_length_filter _ _).symm
  · intro r hr hfresh
    rw [hfilt, List.mem_filter]
    exact ⟨hr, by simpa using hfresh⟩
  · intro r hr
    rw [hfilt, List.mem_filter] at hr
    exact ⟨hr.1, by simpa using hr.2⟩
  · show st.length = (st.filter _).length + (st.filter _).length
    rw [← List.countP_eq_length_filter, ← List.countP_eq_length_filter]
    have := List.length_eq_countP_add_countP
      (l := st) (p := fun r => !(r.last_checked ≤ now - ttlSeconds))
    rw [this]
    congr 1
    apply List.countP_congr
    intro r _
    by_cases h : r.last_checked ≤ now - ttlSeconds <;> simp [h]

theorem C6_evict_amended_witness :
    (clearStaleCache 1000000
      [{ fields := sampleRepA, last_checked := 999000 },
       { fields := sampleRepB, last_checked := 0 }]).2 = 1 ∧
    { fields := sampleRepA, last_checked := (999000 : Int) } ∈
      (clearStaleCache 1000000
        [{ fields := sampleRepA, last_checked := 999000 },
         { fields := sampleRepB, last_checked := 0 }]).1 := by
  constructor
  · rw [(C6_evict_amended 1000000 _).2.1]
    decide
  · exact (C6_evict_amended 1000000 _).2.2.1 _ (by decide) (by decide)

theorem fetch_ip (hasKey : Bool) (provider : String → ProviderOutcome) (s : String) :
    (fetchFromAbuseIPDB hasKey provider s).record.ip_address = s := by
  unfold fetchFromAbuseIPDB
  cases hasKey with
  | false => rfl
  | true =>
    cases provider s with
    | success sc c u w r raw => rfl
    | failure => rfl

theorem find_fresh_map_update (now now2 : Int) (v : RepFields) (h2 : now2 - ttlSeconds < now) :
    ∀ st : RepCache, st.any (fun r => r.fields.ip_address == v.ip_address) = true →
      (st.map (fun r =>
          if r.fields.ip_address == v.ip_address then
            ({ fields := v, last_checked := now } : CacheRow) else r)).find?
        (fun r => r.fields.ip_address == v.ip_address && freshAt now2 r) =
      some { fields := v, last_checked := now } := by
  intro st
  induction st with
  | nil => intro h; simp at h
  | cons r rs ih =>
    intro h
    by_cases hr : (r.fields.ip_address == v.ip_address) = true
    · rw [List.map_cons, if_pos hr]
      apply List.find?_cons_of_pos
      show (v.ip_address == v.ip_address && freshAt now2 { fields := v, last_checked := now }) = true
      rw [Bool.and_eq_true, beq_self_eq_true]
      exact ⟨rfl, by simp [freshAt]; omega⟩
    · rw [List.map_cons, if_neg hr]
      rw [List.find?_cons_of_neg]
      · apply ih
        rcases List.any_eq_true.mp h with ⟨x, hx, hpx⟩
        rcases List.mem_cons.mp hx with rfl | hx
        · exact absurd hpx hr
        · exact List.any_eq_true.mpr ⟨x, hx, hpx⟩
      · show ¬ (r.fields.ip_address == v.ip_address && freshAt now2 r) = true
        rw [Bool.and_eq_true]
        exact fun hc => hr hc.1

theorem find_fresh_upsert (now now2 : Int) (v : RepFields) (st : RepCache)
    (h2 : now2 - ttlSeconds < now) :
    (upsertReputation now v st).find?
        (fun r => r.fields.ip_address == v.ip_address && freshAt now2 r) =
      some { fields := v, last_checked := now } := by
  unfold upsertReputation
  by_cases hex : st.any (fun r => r.fields.ip_address == v.ip_address) = true
  · rw [if_pos hex]
    exact find_fresh_map_update now now2 v h2 st hex
  · rw [if_neg hex]
    have hnone : st.find? (fun r => r.fields.ip_address == v.ip_address && freshAt now2 r)
        = none := by
      rw [List.find?_eq_none]
      intro x hx hpx
      rw [Bool.and_eq_true] at hpx
      exact hex (List.any_eq_true.mpr ⟨x, hx, hpx.1⟩)
    rw [List.find?_append, hnone, Option.none_or]
    apply List.find?_cons_of_pos
    show (v.ip_address == v.ip_address && freshAt now2 { fields := v, last_checked := now })
      = true
    rw [Bool.and_eq_true, beq_self_eq_true]
    exact ⟨rfl, by simp [freshAt]; omega⟩

/-- Claim C3: a lookup is answered from the cache with no provider call
exactly when a row for the address exists with now minus last_checked
strictly below the 7-day TTL; a row at least 7 days old counts as absent
and the lookup refreshes it (the state afterwards holds a row stamped now);
and after a refreshing lookup, a second lookup within the TTL returns the
identical data with no network attempt and no state change, whatever the
provider would do on that second call. -/
theorem C3_cache_ttl (hasKey : Bool) (provider provider2 : String → ProviderOutcome)
    (now now2 : Int) (st : RepCache) (s : String) (hs : ¬ s = "") :
    ((getIPReputationWithCache hasKey provider now st (some s)).cacheHit = true ↔
      ∃ r ∈ st, r.fields.ip_address = s ∧ now - r.last_checked < ttlSeconds) ∧
    ((getIPReputationWithCache hasKey provider now st (some s)).cacheHit = true →
      (getIPReputationWithCache hasKey provider now st (some s)).networkAttempted = false ∧
      (getIPReputationWithCache hasKey provider now st (some s)).state = st ∧
      ∃ r ∈ st, r.fields.ip_address = s ∧ now - r.last_checked < ttlSeconds ∧
        (getIPReputationWithCache hasKey provider now st (some s)).result = some r.fields) ∧
    ((getIPReputationWithCache hasKey provider now st (some s)).cacheHit = false →
      ∃ r ∈ (getIPReputationWithCache hasKey provider now st (some s)).state,
        r.fields.ip_address = s ∧ r.last_checked = now) ∧
    ((getIPReputationWithCache hasKey provider now st (some s)).cacheHit = false →
      now2 - now < ttlSeconds →
      getIPReputationWithCache hasKey provider2 now2
          (getIPReputationWithCache hasKey provider now st (some s)).state (some s) =
        { result := (getIPReputationWithCache hasKey provider now st (some s)).result,
          state := (getIPReputationWithCache hasKey provider now st (some s)).state,
          networkAttempted := false, cacheRead := true, cacheHit := true }) := by
  have httl : (0 : Int) < ttlSeconds := by decide
  rw [lookup_some_unfold hasKey provider now st s hs]
  cases hf : st.find? (fun r => r.fields.ip_address == s && freshAt now r) with
  | some row =>
    have hmem := List.mem_of_find?_eq_some hf
    have hpred := List.find?_some hf
    rcases (Bool.and_eq_true _ _).mp hpred with ⟨h1, h2⟩
    have hip : row.fields.ip_address = s := eq_of_beq h1
    have hfr : now - row.last_checked < ttlSeconds := by
      have := of_decide_eq_true h2
      unfold freshAt at this
      omega
    refine ⟨⟨fun _ => ⟨row, hmem, hip, hfr⟩, fun _ => rfl⟩, ?_, ?_, ?_⟩
    · intro _
      exact ⟨rfl, rfl, row, hmem, hip, hfr, rfl⟩
    · intro hfalse
      exact absurd hfalse (by simp)
    · intro hfalse
      exact absurd hfalse (by simp)
  | none =>
    have hveq : (fetchFromAbuseIPDB hasKey provider s).record.ip_address = s :=
      fetch_ip hasKey provider s
    refine ⟨⟨fun hfalse => absurd hfalse (by simp), ?_⟩, ?_, ?_, ?_⟩
    · rintro ⟨r, hr, hip, hfr⟩
      exfalso
      have := List.find?_eq_none.mp hf r hr
      apply this
      rw [Bool.and_eq_true]
      refine ⟨beq_iff_eq.mpr hip, ?_⟩
      show decide (now - ttlSeconds < r.last_checked) = true
      rw [decide_eq_true_eq]
      omega
    · intro hfalse
      exact absurd hfalse (by simp)
    · intro _
      show ∃ r ∈ upsertReputation now (fetchFromAbuseIPDB hasKey provider s).record st,
        r.fields.ip_address = s ∧ r.last_checked = now
      have hfind := find_fresh_upsert now now
        (fetchFromAbuseIPDB hasKey provider s).record st (by omega)
      rw [hveq] at hfind
      exact ⟨_, List.mem_of_find?_eq_some hfind, hveq, rfl⟩
    · intro _ hlt
      show getIPReputationWithCache hasKey provider2 now2
          (upsertReputation now (fetchFromAbuseIPDB hasKey provider s).record st) (some s) =
        { result := some (fetchFromAbuseIPDB hasKey provider s).record,
          state := upsertReputation now (fetchFromAbuseIPDB hasKey provider s).record st,
          networkAttempted := false, cacheRead := true, cacheHit := true }
      rw [lookup_some_unfold hasKey provider2 now2 _ s hs]
      have hfind := find_fresh_upsert now now2
        (fetchFromAbuseIPDB hasKey provider s).record st (by omega)
      rw [hveq] at hfind
      rw [hfind]

theorem C3_cache_ttl_witness :
    (getIPReputationWithCache false (fun _ => ProviderOutcome.failure) 100
        ((getIPReputationWithCache false (fun _ => ProviderOutcome.failure) 0 []
            (some "8.8.4.4")).state) (some "8.8.4.4")).networkAttempted = false ∧
    (getIPReputationWithCache false (fun _ => ProviderOutcome.failure) 100
        ((getIPReputationWithCache false (fun _ => ProviderOutcome.failure) 0 []
            (some "8.8.4.4")).state) (some "8.8.4.4")).result =
      (getIPReputationWithCache false (fun _ => ProviderOutcome.failure) 0 []
          (some "8.8.4.4")).result := by
  have h := (C3_cache_ttl false (fun _ => ProviderOutcome.failure)
    (fun _ => ProviderOutcome.failure) 0 100 [] "8.8.4.4" (by decide)).2.2.2
  have h2 := h (by decide) (by decide)
  rw [h2]
  exact ⟨rfl, rfl⟩

theorem lookup_no_key_no_network (provider : String → ProviderOutcome) (now : Int)
    (st : RepCache) (ip : Option String) :
    (getIPReputationWithCache false provider now st ip).networkAttempted = false := by
  cases ip with
  | none => rfl
  | some s =>
    by_cases hs : s = ""
    · subst hs; rfl
    · rw [lookup_some_unfold false provider now st s hs]
      cases hf : st.find? (fun r => r.fields.ip_address == s && freshAt now r) with
      | some row => rfl
      | none => rfl

theorem enrichLoop_keys (hasKey : Bool) (provider : String → ProviderOutcome) (now : Int) :
    ∀ (st : RepCache) (l : List String),
      (enrichLoop hasKey provider now st l).results.map Prod.fst = l := by
  intro st l
  induction l generalizing st with
  | nil => rfl
  | cons ip rest ih =>
    simp only [enrichLoop, List.map_cons]
    rw [ih]

theorem enrichLoop_delays (hasKey : Bool) (provider : String → ProviderOutcome) (now : Int) :
    ∀ (st : RepCache) (l : List String),
      (enrichLoop hasKey provider now st l).delays =
        (if hasKey = true then l.length else 0) := by
  intro st l
  induction l generalizing st with
  | nil => cases hasKey <;> rfl
  | cons ip rest ih =>
    simp only [enrichLoop, List.length_cons]
    rw [ih]
    cases hasKey
    · simp
    · simp
      omega

theorem enrichLoop_network_le (hasKey : Bool) (provider : String → ProviderOutcome)
    (now : Int) :
    ∀ (st : RepCache) (l : List String),
      (enrichLoop hasKey provider now st l).networkAttempts ≤ l.length := by
  intro st l
  induction l generalizing st with
  | nil => exact Nat.le_refl 0
  | cons ip rest ih =>
    simp only [enrichLoop, List.length_cons]
    have hb := ih (getIPReputationWithCache hasKey provider now st (some ip)).state
    cases hn : (getIPReputationWithCache hasKey provider now st (some ip)).networkAttempted
    · have h0 : (if (false = true) then 1 else 0) = 0 := rfl
      rw [h0]
      omega
    · have h1 : (if (true = true) then 1 else 0) = 1 := rfl
      rw [h1]
      omega

theorem enrichLoop_no_key_no_network (provider : String → ProviderOutcome) (now : Int) :
    ∀ (st : RepCache) (l : List String),
      (enrichLoop false provider now st l).networkAttempts = 0 := by
  intro st l
  induction l generalizing st with
  | nil => rfl
  | cons ip rest ih =>
    simp only [enrichLoop]
    rw [lookup_no_key_no_network, ih]
    rfl

/-- Claim C8 counterexample: with an API key configured and both addresses
already fresh in the cache, the batch resolves both by cache hits and makes
zero network attempts, yet the code still pauses after each of the two
lookups, where the claim predicts zero pauses. -/
theorem C8_counterexample : ¬ specBatchDelayClaimC8 := by
  intro h
  have hc := h true (fun _ => ProviderOutcome.failure) 0
    [{ fields := sampleRepA, last_checked := 0 },
     { fields := sampleRepB, last_checked := 0 }]
    [some "8.8.8.8", some "9.9.9.9"]
  revert hc
  decide

/-- Claim C8 amended: batchLookup deduplicates its input keeping first
occurrences of the truthy addresses and resolves each distinct address
strictly sequentially through lookup; when an API key is configured the
fixed 250ms pause follows every lookup - cache hits and fallback
resolutions included, and also after the final one - and with no key
configured there is no pause and no network attempt at all. -/
theorem C8_batch_delay_amended (hasKey : Bool) (provider : String → ProviderOutcome)
    (now : Int) (st : RepCache) (ips : List (Option String)) :
    (enrichIPsBatch hasKey provider now st ips).results.map Prod.fst = batchUnique ips ∧
    (enrichIPsBatch hasKey provider now st ips).delays =
      (if hasKey = true then (batchUnique ips).length else 0) ∧
    (enrichIPsBatch hasKey provider now st ips).networkAttempts ≤
      (batchUnique ips).length ∧
    (hasKey = false → (enrichIPsBatch hasKey provider now st ips).networkAttempts = 0) := by
  refine ⟨enrichLoop_keys hasKey provider now st _,
    enrichLoop_delays hasKey provider now st _,
    enrichLoop_network_le hasKey provider now st _, ?_⟩
  intro hk
  subst hk
  exact enrichLoop_no_key_no_network provider now st _

theorem C8_batch_delay_amended_witness :
    (enrichIPsBatch false (fun _ => ProviderOutcome.failure) 0 []
      [some "8.8.8.8", some "9.9.9.9"]).networkAttempts = 0 := by
  exact (C8_batch_delay_amended false (fun _ => ProviderOutcome.failure) 0 []
    [some "8.8.8.8", some "9.9.9.9"]).2.2.2 rfl

theorem mem_dedupFirstAux (x : String) :
    ∀ (seen l : List String), x ∈ dedupFirstAux seen l → x ∈ l := by
  intro seen l
  induction l generalizing seen with
  | nil => intro h; exact absurd h (List.not_mem_nil x)
  | cons y ys ih =>
    intro h
    unfold dedupFirstAux at h
    by_cases hy : y ∈ seen
    · rw [if_pos hy] at h
      exact List.mem_cons_of_mem y (ih seen h)
    · rw [if_neg hy] at h
      rcases List.mem_cons.mp h with rfl | h
      · exact List.mem_cons_self x ys
      · exact List.mem_cons_of_mem y (ih (y :: seen) h)

/-- Claim C10: a falsy address - null, undefined or the empty string -
makes lookup return null at once, with no cache read, no provider call and
no state change; and batchLookup filters falsy entries out before
resolving, so no falsy key ever appears among the result keys. -/
theorem C10_falsy_lookup (hasKey : Bool) (provider : String → ProviderOutcome)
    (now : Int) (st : RepCache) :
    getIPReputationWithCache hasKey provider now st none =
      { result := none, state := st, networkAttempted := false,
        cacheRead := false, cacheHit := false } ∧
    getIPReputationWithCache hasKey provider now st (some "") =
      { result := none, state := st, networkAttempted := false,
        cacheRead := false, cacheHit := false } ∧
    (∀ ips : List (Option String),
      (enrichIPsBatch hasKey provider now st ips).results.map Prod.fst = batchUnique ips ∧
      (∀ k ∈ (enrichIPsBatch hasKey provider now st ips).results.map Prod.fst,
        ¬ k = "")) := by
  refine ⟨rfl, ?_, ?_⟩
  · simp only [getIPReputationWithCache]
    rw [if_pos trivial]
  · intro ips
    have hkeys : (enrichIPsBatch hasKey provider now st ips).results.map Prod.fst
        = batchUnique ips := enrichLoop_keys hasKey provider now st (batchUnique ips)
    refine ⟨hkeys, ?_⟩
    intro k hk
    rw [hkeys] at hk
    have hmem := mem_dedupFirstAux k [] _ hk
    have := (List.mem_filter.mp hmem).2
    simpa using this

theorem C10_falsy_lookup_witness :
    (enrichIPsBatch false (fun _ => ProviderOutcome.failure) 0 []
        [none, some "", some "7.7.7.7"]).results.map Prod.fst = ["7.7.7.7"] := by
  have h := ((C10_falsy_lookup false (fun _ => ProviderOutcome.failure) 0 []).2.2
    [none, some "", some "7.7.7.7"]).1
  rw [h]
  decide

theorem fetch_failure (hasKey : Bool) (s : String) :
    fetchFromAbuseIPDB hasKey (fun _ => ProviderOutcome.failure) s =
      { record := generateStubReputation s, networkAttempted := hasKey } := by
  unfold fetchFromAbuseIPDB
  cases hasKey
  · rfl
  · rfl

theorem no_row_upsert (now : Int) (v : RepFields) (st : RepCache) (s : String)
    (hne : ¬ v.ip_address = s)
    (h : ∀ r ∈ st, ¬ r.fields.ip_address = s) :
    ∀ r ∈ upsertReputation now v st, ¬ r.fields.ip_address = s := by
  intro r hr
  unfold upsertReputation at hr
  by_cases hex : st.any (fun x => x.fields.ip_address == v.ip_address) = true
  · rw [if_pos hex] at hr
    rcases List.mem_map.mp hr with ⟨x, hx, hfx⟩
    by_cases hxv : (x.fields.ip_address == v.ip_address) = true
    · rw [if_pos hxv] at hfx
      rw [← hfx]
      exact hne
    · rw [if_neg hxv] at hfx
      rw [← hfx]
      exact h x hx
  · rw [if_neg hex] at hr
    rcases List.mem_append.mp hr with hx | hx
    · exact h r hx
    · have hx1 := List.mem_singleton.mp hx
      rw [hx1]
      exact hne

theorem dedupFirstAux_of_nodup :
    ∀ (seen l : List String), l.Nodup → (∀ x ∈ l, x ∉ seen) →
      dedupFirstAux seen l = l := by
  intro seen l
  induction l generalizing seen with
  | nil => intro _ _; rfl
  | cons y ys ih =>
    intro hnd hdis
    unfold dedupFirstAux
    rw [if_neg (hdis y (List.mem_cons_self y ys))]
    congr 1
    apply ih
    · exact (List.nodup_cons.mp hnd).2
    · intro x hx hmem
      rcases List.mem_cons.mp hmem with rfl | hseen
      · exact (List.nodup_cons.mp hnd).1 hx
      · exact hdis x (List.mem_cons_of_mem y hx) hseen

theorem filterMap_id_map_some (ips : List String) : (ips.map some).filterMap id = ips := by
  induction ips with
  | nil => rfl
  | cons a as ih =>
    rw [List.map_cons, List.filterMap_cons]
    simp [ih]

theorem batchUnique_map_some (ips : List String) :
    batchUnique (ips.map some) = dedupFirst (ips.filter (fun s => !(s == ""))) := by
  unfold batchUnique
  rw [filterMap_id_map_some]

theorem enrichLoop_miss_all (hasKey : Bool) (now : Int) :
    ∀ (st : RepCache) (l : List String), l.Nodup → (∀ s ∈ l, ¬ s = "") →
      (∀ s ∈ l, ∀ r ∈ st, ¬ r.fields.ip_address = s) →
      (enrichLoop hasKey (fun _ => ProviderOutcome.failure) now st l).results =
        l.map (fun ip => (ip, some (generateStubReputation ip))) := by
  intro st l
  induction l generalizing st with
  | nil => intro _ _ _; rfl
  | cons ip rest ih =>
    intro hnd hne hrows
    have hsip : ¬ ip = "" := hne ip (List.mem_cons_self ip rest)
    have hfind : st.find? (fun r => r.fields.ip_address == ip && freshAt now r) = none := by
      rw [List.find?_eq_none]
      intro x hx hpx
      rw [Bool.and_eq_true] at hpx
      exact hrows ip (List.mem_cons_self ip rest) x hx (eq_of_beq hpx.1)
    have hlook : getIPReputationWithCache hasKey (fun _ => ProviderOutcome.failure) now st
        (some ip) =
        { result := some (generateStubReputation ip),
          state := upsertReputation now (generateStubReputation ip) st,
          networkAttempted := hasKey, cacheRead := true, cacheHit := false } := by
      rw [lookup_some_unfold _ _ _ _ _ hsip, hfind, fetch_failure]
    simp only [enrichLoop, hlook, List.map_cons]
    congr 1
    apply ih
    · exact (List.nodup_cons.mp hnd).2
    · exact fun s hs => hne s (List.mem_cons_of_mem ip hs)
    · intro s hs r hr
      refine no_row_upsert now (generateStubReputation ip) st s ?_
        (hrows s (List.mem_cons_of_mem ip hs)) r hr
      intro hc
      have hips : ip = s := hc
      exact (List.nodup_cons.mp hnd).1 (hips ▸ hs)

theorem countP_congr_bool {α : Type} {p q : α → Bool} {l : List α}
    (h : ∀ x ∈ l, p x = q x) : l.countP p = l.countP q :=
  List.countP_congr (fun x hx => by rw [h x hx])

theorem length_filterMap_eq_countP {α β : Type} (f : α → Option β) (l : List α) :
    (l.filterMap f).length = l.countP (fun a => (f a).isSome) := by
  induction l with
  | nil => rfl
  | cons a as ih =>
    rw [List.filterMap_cons, List.countP_cons]
    cases hf : f a
    · simp [hf, ih]
    · simp [hf, ih]

/-- Claim C4 counterexample: with the provider erroring on every call, a
single recent failed event from 9.9.9.201 is enriched through the fallback
generator, whose high-band score 76 crosses the threshold, so the run
returns a one-element high_risk_ip list, not an empty one. -/
theorem C4_counterexample : ¬ specRunAllClaimC4 := by
  intro h
  have hc := h true 1000 [] [evHighRisk]
  revert hc
  decide

/-- Claim C4 amended: with every provider call erroring, runAll still
completes and returns the brute-force, off-hours and geo-anomaly results
unchanged together with the summed total, and its high_risk_ip list is
computed from the deterministic fallback scores: starting from an empty
reputation cache it holds exactly one alert per distinct recent source IP
whose fallback reputation is non-whitelisted with score at least 50 (so it
is empty exactly when no such address occurs). -/
theorem C4_runall_amended (hasKey : Bool) (now : Int) (logs : List LogEvent) :
    (runAllDetections hasKey (fun _ => ProviderOutcome.failure) now [] logs).1.brute_force
      = detectBruteForce now logs ∧
    (runAllDetections hasKey (fun _ => ProviderOutcome.failure) now [] logs).1.off_hours
      = detectOffHoursAccess now logs ∧
    (runAllDetections hasKey (fun _ => ProviderOutcome.failure) now [] logs).1.geo_anomaly
      = detectGeoAnomalies now logs ∧
    (runAllDetections hasKey (fun _ => ProviderOutcome.failure) now [] logs).1.total =
      (detectBruteForce now logs).length + (detectOffHoursAccess now logs).length +
      (detectGeoAnomalies now logs).length +
      (runAllDetections hasKey (fun _ => ProviderOutcome.failure) now []
        logs).1.high_risk_ip.length ∧
    (runAllDetections hasKey (fun _ => ProviderOutcome.failure) now []
        logs).1.high_risk_ip.length =
      (recentDistinctIPs now logs).countP stubHighRiskQualifies := by
  refine ⟨rfl, rfl, rfl, rfl, ?_⟩
  show (detectHighRiskIPs hasKey (fun _ => ProviderOutcome.failure) now [] logs).1.length = _
  unfold detectHighRiskIPs
  by_cases hemp : (recentDistinctIPs now logs).isEmpty = true
  · rw [if_pos hemp]
    rw [List.isEmpty_iff.mp hemp]
    rfl
  · rw [if_neg hemp]
    show (List.filterMap
        (fun pr => match highRiskFilter pr with
          | some r => some (mkHighRiskAlert now logs pr.1 r)
          | none => none)
        (enrichIPsBatch hasKey (fun _ => ProviderOutcome.failure) now []
          ((recentDistinctIPs now logs).map some)).results).length =
      (recentDistinctIPs now logs).countP stubHighRiskQualifies
    have hnodup : (recentDistinctIPs now logs).Nodup := List.nodup_dedup _
    have hkeys : batchUnique ((recentDistinctIPs now logs).map some) =
        (recentDistinctIPs now logs).filter (fun s => !(s == "")) := by
      rw [batchUnique_map_some]
      exact dedupFirstAux_of_nodup [] _ (hnodup.filter _) (fun x _ => List.not_mem_nil x)
    have hres : (enrichIPsBatch hasKey (fun _ => ProviderOutcome.failure) now []
        ((recentDistinctIPs now logs).map some)).results =
        ((recentDistinctIPs now logs).filter (fun s => !(s == ""))).map
          (fun ip => (ip, some (generateStubReputation ip))) := by
      show (enrichLoop hasKey (fun _ => ProviderOutcome.failure) now []
        (batchUnique ((recentDistinctIPs now logs).map some))).results = _
      rw [hkeys]
      apply enrichLoop_miss_all
      · exact hnodup.filter _
      · intro s hs
        have := (List.mem_filter.mp hs).2
        simpa using this
      · intro s _ r hr
        exact absurd hr (List.not_mem_nil r)
    rw [hres, List.filterMap_map, length_filterMap_eq_countP]
    have hstep : ∀ x ∈ (recentDistinctIPs now logs).filter (fun s => !(s == "")),
        (fun a => ((((fun pr => match highRiskFilter pr with
            | some r => some (mkHighRiskAlert now logs pr.1 r)
            | none => none) ∘ (fun ip => (ip, some (generateStubReputation ip)))) a)).isSome) x
          = stubHighRiskQualifies x := by
      intro x _
      show (match highRiskFilter (x, some (generateStubReputation x)) with
        | some r => some (mkHighRiskAlert now logs x r)
        | none => none).isSome = stubHighRiskQualifies x
      unfold highRiskFilter stubHighRiskQualifies
      cases hq : (!(generateStubReputation x).is_whitelisted &&
          optGE (generateStubReputation x).abuse_confidence_score 50)
      · simp [hq]
      · simp [hq]
    rw [countP_congr_bool hstep, List.countP_filter]
    apply countP_congr_bool
    intro x _
    by_cases hx0 : x = ""
    · subst hx0
      simp [show stubHighRiskQualifies "" = false from by decide]
    · simp [hx0]

theorem runInserts_spec (nowStr : String) (insertErrors : NormalizedEvent → Bool) :
    ∀ (entries : List RawEntry) (store : List NormalizedEvent),
      runInserts nowStr insertErrors store entries =
        (if entries.any (fun e => insertErrors (normalizeLogEntry nowStr e)) then none
         else some (store ++ entries.map (normalizeLogEntry nowStr))) := by
  intro entries
  induction entries with
  | nil => intro store; simp [runInserts]
  | cons e es ih =>
    intro store
    simp only [runInserts, List.any_cons, List.map_cons]
    cases hp : insertErrors (normalizeLogEntry nowStr e)
    · rw [ih]
      cases hq : es.any (fun x => insertErrors (normalizeLogEntry nowStr x))
      · simp [List.append_assoc]
      · simp
    · simp

/-- Claim C7: batch ingestion is atomic - when the insertion of any entry
of the batch raises an error the event store is left exactly as it was,
when no insertion errors the store gains precisely the normalized entries
in order, and in every case the outcome is one of these two (no partial
application). -/
theorem C7_batch_atomic (nowStr : String) (insertErrors : NormalizedEvent → Bool)
    (store : List NormalizedEvent) (entries : List RawEntry) :
    ((∃ e ∈ entries, insertErrors (normalizeLogEntry nowStr e) = true) →
      insertManyTx nowStr insertErrors store entries = store) ∧
    ((∀ e ∈ entries, insertErrors (normalizeLogEntry nowStr e) = false) →
      insertManyTx nowStr insertErrors store entries =
        store ++ entries.map (normalizeLogEntry nowStr)) ∧
    (insertManyTx nowStr insertErrors store entries = store ∨
      insertManyTx nowStr insertErrors store entries =
        store ++ entries.map (normalizeLogEntry nowStr)) := by
  unfold insertManyTx
  rw [runInserts_spec]
  by_cases hany : entries.any (fun e => insertErrors (normalizeLogEntry nowStr e)) = true
  · rw [if_pos hany]
    refine ⟨fun _ => rfl, ?_, Or.inl rfl⟩
    intro hall
    rcases List.any_eq_true.mp hany with ⟨e, he, hpe⟩
    rw [hall e he] at hpe
    simp at hpe
  · rw [if_neg hany]
    refine ⟨?_, fun _ => rfl, Or.inr rfl⟩
    rintro ⟨e, he, hpe⟩
    exact (hany (List.any_eq_true.mpr ⟨e, he, hpe⟩)).elim

theorem C7_batch_atomic_witness :
    insertManyTx "1970-01-01T00:00:00Z" (fun n => n.event_type == "boom") []
        [rawEntryA, rawEntryBoom] = [] ∧
    insertManyTx "1970-01-01T00:00:00Z" (fun n => n.event_type == "boom") []
        [rawEntryA] =
      [normalizeLogEntry "1970-01-01T00:00:00Z" rawEntryA] := by
  constructor
  · exact (C7_batch_atomic "1970-01-01T00:00:00Z" (fun n => n.event_type == "boom") []
      [rawEntryA, rawEntryBoom]).1 ⟨rawEntryBoom, by decide, by decide⟩
  · have h := (C7_batch_atomic "1970-01-01T00:00:00Z" (fun n => n.event_type == "boom") []
      [rawEntryA]).2.1 (by decide)
    simpa using h

theorem jsOrS_falsy (a b : Option String) (h : falsyS a) : jsOrS a b = b := by
  rcases h with h1 | h1
  · rw [h1]
    rfl
  · rw [h1]
    rfl

/-- Claim C9: ingestion normalization never rejects a record - it is a
total function whose output always carries a string timestamp (the current
time when every timestamp alternative is absent or falsy), a string
raw_payload equal to the serialized original record, an event_type
defaulting to unknown, and null for every other field whose alternatives
are all absent. -/
theorem C9_normalize_totals (nowStr : String) (e : RawEntry) :
    (falsyS e.timestamp → falsyS e.time → falsyS e.datetime → falsyS e.date →
      (normalizeLogEntry nowStr e).timestamp = nowStr) ∧
    (falsyS e.event_type → falsyS e.eventType → falsyS e.type → falsyS e.action →
      (normalizeLogEntry nowStr e).event_type = "unknown") ∧
    (falsyS e.username → falsyS e.user → falsyS e.account → falsyS e.userid →
      (normalizeLogEntry nowStr e).username = none) ∧
    (falsyS e.source_ip → falsyS e.sourceIP → falsyS e.src_ip → falsyS e.ip →
      falsyS e.clientIP → (normalizeLogEntry nowStr e).source_ip = none) ∧
    (falsyS e.destination_ip → falsyS e.destIP → falsyS e.dest_ip → falsyS e.target_ip →
      (normalizeLogEntry nowStr e).destination_ip = none) ∧
    (falsyS e.status → falsyS e.result → falsyS e.outcome →
      (normalizeLogEntry nowStr e).status = none) ∧
    (falsyS e.message → falsyS e.description → falsyS e.msg → falsyS e.details →
      (normalizeLogEntry nowStr e).message = none) ∧
    (normalizeLogEntry nowStr e).raw_data = serializeEntry e := by
  refine ⟨?_, ?_, ?_, ?_, ?_, ?_, ?_, rfl⟩
  · intro h1 h2 h3 h4
    show (jsChain [e.timestamp, e.time, e.datetime, e.date]).getD nowStr = nowStr
    unfold jsChain
    simp only [List.foldr]
    rw [jsOrS_falsy _ _ h1, jsOrS_falsy _ _ h2, jsOrS_falsy _ _ h3, jsOrS_falsy _ _ h4]
    rfl
  · intro h1 h2 h3 h4
    show (jsChain [e.event_type, e.eventType, e.type, e.action]).getD "unknown" = "unknown"
    unfold jsChain
    simp only [List.foldr]
    rw [jsOrS_falsy _ _ h1, jsOrS_falsy _ _ h2, jsOrS_falsy _ _ h3, jsOrS_falsy _ _ h4]
    rfl
  · intro h1 h2 h3 h4
    show jsChain [e.username, e.user, e.account, e.userid] = none
    unfold jsChain
    simp only [List.foldr]
    rw [jsOrS_falsy _ _ h1, jsOrS_falsy _ _ h2, jsOrS_falsy _ _ h3, jsOrS_falsy _ _ h4]
  · intro h1 h2 h3 h4 h5
    show jsChain [e.source_ip, e.sourceIP, e.src_ip, e.ip, e.clientIP] = none
    unfold jsChain
    simp only [List.foldr]
    rw [jsOrS_falsy _ _ h1, jsOrS_falsy _ _ h2, jsOrS_falsy _ _ h3, jsOrS_falsy _ _ h4,
      jsOrS_falsy _ _ h5]
  · intro h1 h2 h3 h4
    show jsChain [e.destination_ip, e.destIP, e.dest_ip, e.target_ip] = none
    unfold jsChain
    simp only [List.foldr]
    rw [jsOrS_falsy _ _ h1, jsOrS_falsy _ _ h2, jsOrS_falsy _ _ h3, jsOrS_falsy _ _ h4]
  · intro h1 h2 h3
    show jsChain [e.status, e.result, e.outcome] = none
    unfold jsChain
    simp only [List.foldr]
    rw [jsOrS_falsy _ _ h1, jsOrS_falsy _ _ h2, jsOrS_falsy _ _ h3]
  · intro h1 h2 h3 h4
    show jsChain [e.message, e.description, e.msg, e.details] = none
    unfold jsChain
    simp only [List.foldr]
    rw [jsOrS_falsy _ _ h1, jsOrS_falsy _ _ h2, jsOrS_falsy _ _ h3, jsOrS_falsy _ _ h4]

theorem C9_normalize_totals_witness :
    (normalizeLogEntry "1970-01-01T00:00:00Z" rawEntryEmpty).timestamp
      = "1970-01-01T00:00:00Z" ∧
    (normalizeLogEntry "1970-01-01T00:00:00Z" rawEntryEmpty).event_type = "unknown" ∧
    (normalizeLogEntry "1970-01-01T00:00:00Z" rawEntryEmpty).username = none := by
  have h := C9_normalize_totals "1970-01-01T00:00:00Z" rawEntryEmpty
  exact ⟨h.1 (Or.inl rfl) (Or.inl rfl) (Or.inl rfl) (Or.inl rfl),
    h.2.1 (Or.inl rfl) (Or.inl rfl) (Or.inl rfl) (Or.inl rfl),
    h.2.2.1 (Or.inl rfl) (Or.inl rfl) (Or.inl rfl) (Or.inl rfl)⟩

end ThreatDetect
